import Mathlib

/-!
Verification of the SRV-record cache and routing-decision engine of the
`dns-SRV_to_redirection` Cloudflare worker.

The worker source (two near-identical revisions, `worker.js` and the unnamed
upgraded revision) is shallowly embedded here: each JavaScript function that
the claims mention is translated into an executable Lean definition over
explicit state (the SRV cache, the custom-redirect-mode store) and pure
inputs (the paginated API responses, the request hostname and path).
JavaScript strings are modelled as Lean `String`/`List Char`; the two
regular expressions the worker builds (`wildcardToRegex` and the portal
subdomain pattern) are modelled by small executable matchers whose
semantics coincide with the JavaScript regexes on the character sets that
actually occur in domain patterns and hostnames (letters, digits, `-`,
`.`, `*`; no line terminators).
-/

set_option maxRecDepth 8000

/-- JavaScript line terminators, which `.` in a regular expression does not
match (`\n`, `\r`, U+2028, U+2029). -/
def lineTerm (c : Char) : Bool :=
  c = '\n' || c = '\r' || c.toNat = 0x2028 || c.toNat = 0x2029

/-- ASCII lower-casing of one character, mirroring what
`String.prototype.toLowerCase` does on the ASCII domain labels the worker
handles. -/
def charLower (c : Char) : Char :=
  if 'A' ≤ c ∧ c ≤ 'Z' then Char.ofNat (c.toNat + 32) else c

/-- Lower-case a string character by character (ASCII). -/
def lowerStr (s : String) : String :=
  ⟨s.toList.map charLower⟩

/-- `matchesAt needle hay` is true when `needle` occurs at the very start of
`hay` (the list form of `String.prototype.startsWith`). -/
def matchesAt : List Char → List Char → Bool
  | [], _ => true
  | _ :: _, [] => false
  | c :: cs, x :: xs => c == x && matchesAt cs xs

/-- `containsSeq needle hay` is true when `needle` occurs contiguously
somewhere in `hay` (the list form of `String.prototype.includes`). -/
def containsSeq (needle : List Char) : List Char → Bool
  | [] => matchesAt needle []
  | x :: xs => matchesAt needle (x :: xs) || containsSeq needle xs

/-- `strStarts s t`: does `s` start with `t`?  Models
`s.startsWith(t)` in the worker. -/
def strStarts (s t : String) : Bool :=
  matchesAt t.toList s.toList

/-- `strContainsSub s t`: does `s` contain `t` as a substring?  Models
`s.includes(t)` in the worker. -/
def strContainsSub (s t : String) : Bool :=
  containsSeq t.toList s.toList

/-- Split a character list on `'.'`, mirroring `name.split(".")`:
`splitDotAux [] "a..b"` gives `["a", "", "b"]` and
`splitDotAux [] ""` gives `[""]`.  The accumulator holds the characters of
the current field in reverse. -/
def splitDotAux (cur : List Char) : List Char → List (List Char)
  | [] => [cur.reverse]
  | c :: cs => if c = '.' then cur.reverse :: splitDotAux [] cs else splitDotAux (c :: cur) cs

/-- Rejoin fields with `'.'`, mirroring `parts.join(".")`. -/
def joinDot : List (List Char) → List Char
  | [] => []
  | [x] => x
  | x :: xs => x ++ '.' :: joinDot xs

/-- Result of `parseSrvName`: the first two labels of the record name and
the remaining labels rejoined. -/
structure ParsedName where
  service : String
  protocol : String
  hostname : String
deriving DecidableEq, Repr

/-- Embedding of `parseSrvName` (worker.js lines 236-247, part_000 lines
223-232): split the record name on `.`; with fewer than two parts degrade
to empty service/protocol and the whole name as hostname; otherwise the
first two parts are service and protocol and the rest, rejoined with `.`,
is the hostname. -/
def parseSrvName (name : String) : ParsedName :=
  let parts := splitDotAux [] name.toList
  if parts.length < 2 then ⟨"", "", name⟩
  else ⟨⟨parts.headD []⟩, ⟨(parts.drop 1).headD []⟩, ⟨joinDot (parts.drop 2)⟩⟩

lemma joinDot_eq_nil (l : List (List Char)) :
    joinDot l = [] ↔ l = [] ∨ l = [[]] := by
  match l with
  | [] => simp [joinDot]
  | [x] => simp [joinDot]
  | x :: y :: t => simp [joinDot]

/-- C6 counterexample: the two-label name `a.b` does not degrade to
`service="", protocol="", hostname="a.b"` as the claim requires for names
with fewer than 3 labels; the worker only degrades below 2 labels, so
`a.b` parses to `service="a", protocol="b"` with an empty hostname. -/
theorem c6_counterexample :
    (splitDotAux [] "a.b".toList).length < 3
    ∧ parseSrvName "a.b" ≠ ⟨"", "", "a.b"⟩
    ∧ parseSrvName "a.b" = ⟨"a", "b", ""⟩ := by
  refine ⟨by decide, by decide, by decide⟩

/-- C6 (amended): `parseSrvName` splits on `.`; a name with fewer than 2
dot-separated parts (no dot at all) degrades to
`service="", protocol="", hostname=originalName`; with at least 2 parts the
first two parts become service and protocol and the rest, rejoined with
`.`, becomes the hostname — which is empty exactly for 2-part names and
for 3-part names whose third part is empty, and non-empty in every other
case with at least 3 parts. -/
theorem c6_parse_name (name : String) :
    ((splitDotAux [] name.toList).length < 2 → parseSrvName name = ⟨"", "", name⟩)
    ∧ (∀ a b rest, splitDotAux [] name.toList = a :: b :: rest →
        parseSrvName name = ⟨⟨a⟩, ⟨b⟩, ⟨joinDot rest⟩⟩)
    ∧ (∀ a b rest, splitDotAux [] name.toList = a :: b :: rest →
        rest ≠ [] → rest ≠ [[]] → (parseSrvName name).hostname ≠ "") := by
  refine ⟨?_, ?_, ?_⟩
  · intro h
    have h2 : (splitDotAux [] name.data).length < 2 := h
    simp [parseSrvName, h2]
  · intro a b rest h
    have h2 : splitDotAux [] name.data = a :: b :: rest := h
    simp [parseSrvName, h2]
  · intro a b rest h hne hne2
    have h2 : splitDotAux [] name.data = a :: b :: rest := h
    have hrw : parseSrvName name = ⟨⟨a⟩, ⟨b⟩, ⟨joinDot rest⟩⟩ := by
      simp [parseSrvName, h2]
    rw [hrw]
    intro hcon
    have hdata : joinDot rest = ([] : List Char) := by
      have := congrArg String.data hcon
      simpa using this
    rcases (joinDot_eq_nil rest).mp hdata with h1 | h1
    · exact hne h1
    · exact hne2 h1

/-- C6 witness: the canonical SRV name parses as described by the amended
claim, with a non-empty hostname. -/
theorem c6_parse_name_witness :
    parseSrvName "_http._tls.dav.nat.example.com"
      = ⟨"_http", "_tls", "dav.nat.example.com"⟩
    ∧ (parseSrvName "_http._tls.dav.nat.example.com").hostname ≠ "" := by
  have h := c6_parse_name "_http._tls.dav.nat.example.com"
  refine ⟨?_, ?_⟩
  · have := h.2.1 "_http".toList "_tls".toList
      ["dav".toList, "nat".toList, "example".toList, "com".toList] (by decide)
    rw [this]
    decide
  · exact h.2.2 "_http".toList "_tls".toList
      ["dav".toList, "nat".toList, "example".toList, "com".toList]
      (by decide) (by decide) (by decide)

/-- Embedding of `determineIfWebService` (part_000 lines 624-641,
worker.js lines 564-581): a record is a web service iff its lower-cased
service starts with `_http` (or `_https`, which is subsumed); the scheme is
`https` when the lower-cased protocol contains `tls`, or the lower-cased
service contains `._tls`, or the lower-cased service starts with `_https`,
and `http` otherwise. -/
def determineIfWebService (service protocol : String) : Bool × String :=
  let sLower := lowerStr service
  if strStarts sLower "_http" || strStarts sLower "_https" then
    let scheme0 :=
      if strContainsSub (lowerStr protocol) "tls" || strContainsSub sLower "._tls"
      then "https" else "http"
    let scheme := if strStarts sLower "_https" then "https" else scheme0
    (true, scheme)
  else (false, "http")

/-- Embedding of `getLocalSchemeLink` (part_000 lines 648-668): map a
non-web service label to a local protocol link by substring tests on the
lower-cased service, in source order `_ssh`, `_sftp`, `_rdp`, `_vnc`;
unmatched services yield the empty string. -/
def getLocalSchemeLink (service protocol target : String) (port : Int) : String :=
  let s := lowerStr service
  if strContainsSub s "_ssh" then "ssh://" ++ target ++ ":" ++ toString port
  else if strContainsSub s "_sftp" then "sftp://" ++ target ++ ":" ++ toString port
  else if strContainsSub s "_rdp" then "rdp://" ++ target ++ ":" ++ toString port
  else if strContainsSub s "_vnc" then "vnc://" ++ target ++ ":" ++ toString port
  else ""

/-- C7 counterexample: the claim says the scheme is `https` whenever the
service contains `tls`, but the worker only tests the service for the
substring `._tls` (and the protocol for `tls`).  For
`service="_httptls"`, `protocol="_tcp"` the service contains `tls`, yet the
worker classifies the record as web with scheme `http`, not `https`. -/
theorem c7_counterexample :
    strContainsSub (lowerStr "_httptls") "tls" = true
    ∧ strStarts (lowerStr "_httptls") "_https" = false
    ∧ determineIfWebService "_httptls" "_tcp" = (true, "http") := by
  refine ⟨by decide, by decide, by decide⟩

/-- C7 (amended): a record is web iff its service, case-insensitively,
starts with `_http` or `_https`; for a web record the scheme is `https`
iff the service starts with `_https`, or the protocol contains `tls`, or
the service contains `._tls` (all case-insensitive) — not for every
service merely containing `tls`.  In particular `service="_https"`,
`protocol="_tcp"` is web with scheme `https`; `service="_http"`,
`protocol="_tls"` is web with scheme `https`; and `service="_ssh"` is
non-web with local link `ssh://target:port`. -/
theorem c7_classification (service protocol target : String) (port : Int) :
    ((determineIfWebService service protocol).1 = true ↔
      (strStarts (lowerStr service) "_http" = true
        ∨ strStarts (lowerStr service) "_https" = true))
    ∧ ((determineIfWebService service protocol).1 = true →
        ((determineIfWebService service protocol).2 = "https" ↔
          (strStarts (lowerStr service) "_https" = true
            ∨ strContainsSub (lowerStr protocol) "tls" = true
            ∨ strContainsSub (lowerStr service) "._tls" = true)))
    ∧ determineIfWebService "_https" "_tcp" = (true, "https")
    ∧ determineIfWebService "_http" "_tls" = (true, "https")
    ∧ (determineIfWebService "_ssh" "_tcp").1 = false
    ∧ getLocalSchemeLink "_ssh" "_tcp" target port
        = "ssh://" ++ target ++ ":" ++ toString port := by
  refine ⟨?_, ?_, by decide, by decide, by decide, ?_⟩
  · unfold determineIfWebService
    by_cases h1 : strStarts (lowerStr service) "_http" = true
    · simp [h1]
    · by_cases h2 : strStarts (lowerStr service) "_https" = true
      · simp [h1, h2]
      · simp [h1, h2]
  · intro hweb
    unfold determineIfWebService at hweb ⊢
    by_cases h2 : strStarts (lowerStr service) "_https" = true
    · simp [h2]
    · by_cases h1 : strStarts (lowerStr service) "_http" = true
      · by_cases h3 : strContainsSub (lowerStr protocol) "tls" = true
        · simp [h1, h2, h3]
        · by_cases h4 : strContainsSub (lowerStr service) "._tls" = true
          · simp [h1, h2, h3, h4]
          · simp [h1, h2, h3, h4]
      · simp [h1, h2] at hweb
  · unfold getLocalSchemeLink
    have hssh : strContainsSub (lowerStr "_ssh") "_ssh" = true := by decide
    simp [hssh]

/-- C7 witness: the amended classification at the concrete records named in
the claim. -/
theorem c7_classification_witness :
    (determineIfWebService "_https" "_tcp").2 = "https"
    ∧ getLocalSchemeLink "_ssh" "_tcp" "host" 22 = "ssh://host:22" := by
  have h := c7_classification "_https" "_tcp" "host" 22
  refine ⟨?_, ?_⟩
  · exact (h.2.1 (by decide)).mpr (Or.inl (by decide))
  · have h2 := (c7_classification "_ssh" "_tcp" "host" 22).2.2.2.2.2
    rw [h2]
    decide

/-- Embedding of the custom-redirect-mode update performed by
`handlePortalPageWithAuth` (part_000 lines 264-279): a proposed status is
stored for the domain only when it is one of 301, 302, 307, 308; any other
value leaves the store unchanged.  The process-wide object
`globalThis.customRedirectModes` is modelled as an association list whose
most recent entry for a hostname shadows older ones. -/
def updateCustomRedirectMode (store : List (String × Int)) (domain : String)
    (status : Int) : List (String × Int) :=
  if status = 301 ∨ status = 302 ∨ status = 307 ∨ status = 308 then
    (domain, status) :: store
  else store

/-- Lookup in the custom-redirect-mode store: the value of
`customRedirectModes[hostname]`, `none` when the key is absent. -/
def getOverride (store : List (String × Int)) (hostname : String) : Option Int :=
  (store.find? (fun p => p.1 == hostname)).map (fun p => p.2)

/-- Embedding of `customRedirectModes[hostname] || config.defaultRedirectStatus`
(part_000 lines 522 and 552): the stored value when present and truthy
(non-zero), the configured default otherwise. -/
def getRedirectStatus (store : List (String × Int)) (hostname : String)
    (dflt : Int) : Int :=
  match getOverride store hostname with
  | some v => if v = 0 then dflt else v
  | none => dflt

/-- Embedding of the `DEFAULT_REDIRECT_STATUS` parsing in `initConfig`
(part_000 lines 93-96): `none` stands for a missing or non-numeric
environment value (`parseInt` returned NaN); anything outside
{301, 302, 307, 308} falls back to 302. -/
def parseDefaultRedirectStatus (raw : Option Int) : Int :=
  match raw with
  | some v => if v = 301 ∨ v = 302 ∨ v = 307 ∨ v = 308 then v else 302
  | none => 302

/-- One token of the regular expression produced by `wildcardToRegex`:
either a literal character (an escaped `.` or any other character of the
pattern, which for domain patterns — letters, digits, `-`, `.` — is a
regex literal) or `.*`, the translation of `*`. -/
inductive RegexToken where
  | lit (c : Char)
  | dotStar
deriving DecidableEq, Repr

/-- Embedding of `wildcardToRegex` (part_000 lines 728-731, worker.js lines
606-610): escape every `.`, turn every `*` into `.*`, and anchor with
`^...$`.  The anchoring is captured by the matcher `regexAccept` consuming
the whole hostname.  Faithful for patterns made of letters, digits, `-`,
`.` and `*`, the characters occurring in domain patterns (other regex
metacharacters are not escaped by the worker and are not modelled). -/
def wildcardToRegex (wildcard : String) : List RegexToken :=
  wildcard.toList.map (fun c => if c = '*' then RegexToken.dotStar else RegexToken.lit c)

/-- Matching of the `.*` token: skip any number of non-line-terminator
characters before matching the rest (`accept`). -/
def acceptStar (accept : List Char → Bool) : List Char → Bool
  | [] => accept []
  | x :: xs => accept (x :: xs) || (!lineTerm x && acceptStar accept xs)

/-- Anchored matching of a compiled wildcard regex against a character
list: literals must match one character each, `.*` matches any run of
non-line-terminator characters, and the whole input must be consumed
(`^...$`). -/
def regexAccept : List RegexToken → List Char → Bool
  | [], s => s.isEmpty
  | RegexToken.lit _ :: _, [] => false
  | RegexToken.lit c :: ts, x :: xs => c == x && regexAccept ts xs
  | RegexToken.dotStar :: ts, s => acceptStar (regexAccept ts) s

/-- `regex.test(hostname)` for the regex built by `wildcardToRegex`. -/
def testWildcard (pattern hostname : String) : Bool :=
  regexAccept (wildcardToRegex pattern) hostname.toList

/-- Replace the first `*` of the pattern by `s` (identity when the pattern
has no `*`): the claim C8 reference semantics of a wildcard pattern. -/
def substStarList (p s : List Char) : List Char :=
  match p with
  | [] => []
  | c :: cs => if c = '*' then s ++ cs else c :: substStarList cs s

/-- String form of `substStarList`. -/
def substStar (p s : String) : String :=
  ⟨substStarList p.toList s.toList⟩

/-- A character that may occur in a configured domain pattern: letters,
digits, `-`, `.` or the wildcard `*`. -/
def domainPatternChar (c : Char) : Bool :=
  c.isAlphanum || c = '-' || c = '.' || c = '*'

lemma regexAccept_lits (pre : List Char) (ts : List RegexToken) (h : List Char) :
    regexAccept (pre.map RegexToken.lit ++ ts) h = true ↔
      ∃ h2, h = pre ++ h2 ∧ regexAccept ts h2 = true := by
  induction pre generalizing h with
  | nil =>
    simp
  | cons c cs ih =>
    cases h with
    | nil =>
      simp [regexAccept]
    | cons x xs =>
      simp only [List.map_cons, List.cons_append, regexAccept, Bool.and_eq_true, beq_iff_eq,
        List.append_eq]
      rw [ih]
      constructor
      · rintro ⟨rfl, h2, rfl, hacc⟩
        exact ⟨h2, rfl, hacc⟩
      · rintro ⟨h2, heq, hacc⟩
        injection heq with h1 h2eq
        exact ⟨h1.symm, h2, h2eq, hacc⟩

lemma acceptStar_iff (f : List Char → Bool) (h : List Char) :
    acceptStar f h = true ↔
      ∃ h1 h2, h = h1 ++ h2 ∧ (∀ c ∈ h1, lineTerm c = false) ∧ f h2 = true := by
  induction h with
  | nil =>
    simp only [acceptStar]
    constructor
    · intro hf
      exact ⟨[], [], rfl, by simp, hf⟩
    · rintro ⟨h1, h2, heq, hlt, hacc⟩
      rcases List.append_eq_nil.mp heq.symm with ⟨rfl, rfl⟩
      exact hacc
  | cons x xs ih =>
    simp only [acceptStar, Bool.or_eq_true, Bool.and_eq_true, Bool.not_eq_true']
    rw [ih]
    constructor
    · rintro (hf | ⟨hx, h1, h2, rfl, hlt, hacc⟩)
      · exact ⟨[], x :: xs, rfl, by simp, hf⟩
      · refine ⟨x :: h1, h2, rfl, ?_, hacc⟩
        intro c hc
        rcases List.mem_cons.mp hc with rfl | hc
        · exact hx
        · exact hlt c hc
    · rintro ⟨h1, h2, heq, hlt, hacc⟩
      cases h1 with
      | nil =>
        simp at heq
        subst heq
        exact Or.inl hacc
      | cons y ys =>
        rw [List.cons_append] at heq
        injection heq with hy hrest
        subst hy
        right
        refine ⟨hlt x (by simp), ys, h2, hrest, ?_, hacc⟩
        intro c hc
        exact hlt c (by simp [hc])

lemma regexAccept_lits_only (pre : List Char) (h : List Char) :
    regexAccept (pre.map RegexToken.lit) h = true ↔ h = pre := by
  have := regexAccept_lits pre [] h
  rw [List.append_nil] at this
  rw [this]
  constructor
  · rintro ⟨h2, rfl, hacc⟩
    cases h2 with
    | nil => simp
    | cons a b => simp [regexAccept, List.isEmpty] at hacc
  · rintro rfl
    exact ⟨[], by simp, by simp [regexAccept]⟩

lemma star_split (l : List Char) (hcount : l.count '*' ≤ 1) :
    ('*' ∉ l) ∨ ∃ a b, l = a ++ '*' :: b ∧ '*' ∉ a ∧ '*' ∉ b := by
  induction l with
  | nil => exact Or.inl (by simp)
  | cons c t ih =>
    by_cases hc : c = '*'
    · subst hc
      right
      refine ⟨[], t, by simp, by simp, ?_⟩
      rw [List.count_cons_self] at hcount
      have : t.count '*' = 0 := by omega
      exact (List.count_eq_zero).mp this
    · have hcount2 : t.count '*' ≤ 1 := by
        rw [List.count_cons] at hcount
        omega
      rcases ih hcount2 with hnot | ⟨a, b, rfl, ha, hb⟩
      · left
        intro hmem
        rcases List.mem_cons.mp hmem with h1 | h1
        · exact hc h1.symm
        · exact hnot h1
      · right
        refine ⟨c :: a, b, by simp, ?_, hb⟩
        intro hmem
        rcases List.mem_cons.mp hmem with h1 | h1
        · exact hc h1.symm
        · exact ha h1

lemma strEqOfData {s t : String} (h : s.data = t.data) : s = t := by
  cases s
  cases t
  exact congrArg String.mk h

lemma wildcardTokens_noStar (l : List Char) (h : '*' ∉ l) :
    l.map (fun c => if c = '*' then RegexToken.dotStar else RegexToken.lit c)
      = l.map RegexToken.lit := by
  induction l with
  | nil => simp
  | cons c t ih =>
    have hc : c ≠ '*' := fun hcc => h (by simp [hcc])
    have ht : '*' ∉ t := fun htt => h (by simp [htt])
    simp [hc, ih ht]

lemma substStarList_noStar (l s : List Char) (h : '*' ∉ l) :
    substStarList l s = l := by
  induction l with
  | nil => simp [substStarList]
  | cons c t ih =>
    have hc : c ≠ '*' := fun hcc => h (by simp [hcc])
    have ht : '*' ∉ t := fun htt => h (by simp [htt])
    simp [substStarList, hc, ih ht]

lemma substStarList_app (a b s : List Char) (ha : '*' ∉ a) :
    substStarList (a ++ '*' :: b) s = a ++ s ++ b := by
  induction a with
  | nil => simp [substStarList]
  | cons c t ih =>
    have hc : c ≠ '*' := fun hcc => ha (by simp [hcc])
    have ht : '*' ∉ t := fun htt => ha (by simp [htt])
    simp [substStarList, hc, ih ht]

/-- C8: for a domain pattern with at most one `*` (over the domain-pattern
alphabet) and a hostname free of line terminators, the compiled matcher
accepts the hostname iff the hostname equals the pattern with the `*`
replaced by some — possibly empty, possibly dot-containing — string; the
match is anchored over the whole hostname. -/
theorem c8_wildcard_match (P H : String)
    (hP : P.toList.all domainPatternChar = true)
    (hstar : P.toList.count '*' ≤ 1)
    (hH : ∀ c ∈ H.toList, lineTerm c = false) :
    testWildcard P H = true ↔ ∃ s : String, H = substStar P s := by
  unfold testWildcard wildcardToRegex
  rcases star_split P.toList hstar with hno | ⟨a, b, hPl, ha, hb⟩
  · rw [wildcardTokens_noStar _ hno, regexAccept_lits_only]
    constructor
    · intro heq
      refine ⟨"", ?_⟩
      apply strEqOfData
      have h1 : H.data = P.data := heq
      have h2 : (substStar P "").data = P.data := by
        show substStarList P.data [] = P.data
        exact substStarList_noStar _ _ hno
      rw [h1, h2]
    · rintro ⟨s, rfl⟩
      show (substStar P s).data = P.data
      show substStarList P.data s.data = P.data
      exact substStarList_noStar _ _ hno
  · rw [hPl]
    simp only [List.map_append, List.map_cons, reduceIte]
    rw [wildcardTokens_noStar _ ha, wildcardTokens_noStar _ hb]
    rw [regexAccept_lits]
    constructor
    · rintro ⟨h2, hH2, hacc⟩
      have hacc2 : acceptStar (regexAccept (b.map RegexToken.lit)) h2 = true := hacc
      rcases (acceptStar_iff _ _).mp hacc2 with ⟨s1, s2, hsplit, hlt1, hs2⟩
      have hs2b : s2 = b := (regexAccept_lits_only b s2).mp hs2
      refine ⟨⟨s1⟩, ?_⟩
      apply strEqOfData
      have hHd : H.data = a ++ h2 := hH2
      have hsub : (substStar P (⟨s1⟩ : String)).data = a ++ s1 ++ b := by
        show substStarList P.data s1 = a ++ s1 ++ b
        have hPd : P.data = a ++ '*' :: b := hPl
        rw [hPd]
        exact substStarList_app _ _ _ ha
      rw [hHd, hsub, hsplit, hs2b, List.append_assoc]
    · rintro ⟨s, rfl⟩
      have hdat : (substStar P s).data = a ++ s.data ++ b := by
        show substStarList P.data s.data = a ++ s.data ++ b
        have hPd : P.data = a ++ '*' :: b := hPl
        rw [hPd]
        exact substStarList_app _ _ _ ha
      refine ⟨s.data ++ b, ?_, ?_⟩
      · show (substStar P s).data = a ++ (s.data ++ b)
        rw [hdat, List.append_assoc]
      · show acceptStar (regexAccept (b.map RegexToken.lit)) (s.data ++ b) = true
        apply (acceptStar_iff _ _).mpr
        refine ⟨s.data, b, rfl, ?_, (regexAccept_lits_only b b).mpr rfl⟩
        intro c hc
        apply hH
        show c ∈ (substStar P s).data
        rw [hdat]
        simp [hc]

/-- C8 witness: `*.nat.example.com` matches the multi-label hostname
`a.b.nat.example.com`, obtained from the theorem with the substitution
string `a.b`. -/
theorem c8_wildcard_match_witness :
    testWildcard "*.nat.example.com" "a.b.nat.example.com" = true := by
  exact (c8_wildcard_match "*.nat.example.com" "a.b.nat.example.com"
    (by decide) (by decide) (by decide)).mpr ⟨"a.b", by decide⟩

/-- A parsed SRV record as built by `fetchAllSrvRecords` (§3 of the design:
`service`/`protocol`/`hostname` from `parseSrvName`, numeric fields
defaulting to 0, target with its trailing root dot stripped). -/
structure SrvRecord where
  originalName : String
  service : String
  protocol : String
  hostname : String
  target : String
  port : Int
  priority : Int
  weight : Int
deriving DecidableEq, Repr

/-- A raw Cloudflare DNS record as consumed by `fetchAllSrvRecords`:
`name` plus the optional `data.{port,priority,weight,target}` fields
(`none` models an absent field). -/
structure RawRecord where
  name : String
  port : Option Int
  priority : Option Int
  weight : Option Int
  target : Option String
deriving DecidableEq, Repr

/-- Remove a single trailing `'.'`, mirroring `.replace(/\.$/, "")`. -/
def stripDotList : List Char → List Char
  | [] => []
  | ['.'] => []
  | c :: cs => c :: stripDotList cs

/-- String form of `stripDotList`. -/
def stripTrailingDot (t : String) : String :=
  ⟨stripDotList t.toList⟩

/-- The per-record mapping inside `fetchAllSrvRecords` (part_000 lines
202-216): parse the name, default the numeric fields to 0 and the target
to the empty string, and strip the target's trailing dot. -/
def parseSrvRecord (r : RawRecord) : SrvRecord :=
  let p := parseSrvName r.name
  { originalName := r.name
    service := p.service
    protocol := p.protocol
    hostname := p.hostname
    target := stripTrailingDot (r.target.getD "")
    port := r.port.getD 0
    priority := r.priority.getD 0
    weight := r.weight.getD 0 }

/-- One page of the Cloudflare API pagination as observed by
`fetchAllSrvRecords`: `fail` is a non-2xx response or a body with
`success=false`; `ok` carries `result` and the `result_info.page` /
`result_info.total_pages` numbers. -/
inductive PageResp where
  | fail
  | ok (result : List RawRecord) (page totalPages : Int)
deriving DecidableEq, Repr

/-- The pagination loop of `fetchAllSrvRecords` (part_000 lines 169-199):
pages are consumed in request order; a failing page breaks out of the loop
keeping everything accumulated so far; a successful page appends its
records and the loop stops once `page >= total_pages`. -/
def fetchLoop (acc : List RawRecord) : List PageResp → List RawRecord
  | [] => acc
  | PageResp.fail :: _ => acc
  | PageResp.ok result page totalPages :: rest =>
      if page ≥ totalPages then acc ++ result else fetchLoop (acc ++ result) rest

/-- Embedding of `fetchAllSrvRecords` (part_000 lines 159-218, worker.js
lines 155-230) as a function of the sequence of page responses the API
would give: run the pagination loop from an empty accumulator, then parse
every accumulated raw record. -/
def fetchAllSrvRecords (pages : List PageResp) : List SrvRecord :=
  (fetchLoop [] pages).map parseSrvRecord

/-- The process-wide SRV cache `globalThis.srvRecordsCache`: the parsed
snapshot and the epoch-seconds timestamp of the last successful fetch. -/
structure SrvCache where
  data : List SrvRecord
  fetchedAt : Int
deriving DecidableEq, Repr

/-- Embedding of `ensureSrvRecordsCache` (part_000 lines 131-150,
worker.js lines 122-146): when `now - fetchedAt > ttl` the upstream pages
are fetched (second component `true`); the resulting records replace the
snapshot and timestamp only when non-empty; otherwise — and whenever the
cache is still fresh — the cache is returned untouched. -/
def ensureSrvRecordsCache (cache : SrvCache) (now ttl : Int)
    (pages : List PageResp) : SrvCache × Bool :=
  if now - cache.fetchedAt > ttl then
    let records := fetchAllSrvRecords pages
    (if records.length > 0 then ⟨records, now⟩ else cache, true)
  else (cache, false)

/-- A sample raw SRV record used by concrete cache scenarios. -/
def sampleRaw : RawRecord :=
  ⟨"_http._tcp.dav.nat.example.com", some 8080, some 10, some 5, some "backend.internal."⟩

/-- C2 counterexample: with page 1 succeeding (one record, total_pages = 2)
and page 2 failing, the fetch does not discard the accumulated records —
it parses them, and a stale empty cache at t=400 installs them as the new
snapshot with `fetchedAt = 400`, contrary to the claimed stale-cache
discard. -/
theorem c2_counterexample :
    fetchAllSrvRecords [PageResp.ok [sampleRaw] 1 2, PageResp.fail]
      = [parseSrvRecord sampleRaw]
    ∧ (ensureSrvRecordsCache ⟨[], 0⟩ 400 300
        [PageResp.ok [sampleRaw] 1 2, PageResp.fail]).1
      = ⟨[parseSrvRecord sampleRaw], 400⟩
    ∧ (ensureSrvRecordsCache ⟨[], 0⟩ 400 300
        [PageResp.ok [sampleRaw] 1 2, PageResp.fail]).1 ≠ ⟨[], 0⟩ := by
  refine ⟨by decide, by decide, by decide⟩

/-- C2 (amended): a failing page aborts pagination but keeps what earlier
pages accumulated; only a failure on the very first page yields an empty
fetch, in which case the cache keeps its previous data and fetchedAt; in
general, whenever the whole fetch comes back empty the cache is left
untouched; and a first page that succeeds (page 1 of 2) followed by a
failure returns exactly the first page's records. -/
theorem c2_fetch_abort (acc : List RawRecord) (rest : List PageResp)
    (cache : SrvCache) (now ttl : Int) :
    fetchLoop acc (PageResp.fail :: rest) = acc
    ∧ fetchAllSrvRecords (PageResp.fail :: rest) = []
    ∧ (ensureSrvRecordsCache cache now ttl (PageResp.fail :: rest)).1 = cache
    ∧ (∀ pages, fetchAllSrvRecords pages = [] →
        (ensureSrvRecordsCache cache now ttl pages).1 = cache)
    ∧ (∀ result rest2, fetchLoop [] (PageResp.ok result 1 2 :: PageResp.fail :: rest2)
        = result) := by
  have hfail : ∀ r : List PageResp, fetchAllSrvRecords (PageResp.fail :: r) = [] := by
    intro r
    simp [fetchAllSrvRecords, fetchLoop]
  have hkeep : ∀ pages, fetchAllSrvRecords pages = [] →
      (ensureSrvRecordsCache cache now ttl pages).1 = cache := by
    intro pages hp
    unfold ensureSrvRecordsCache
    by_cases hstale : now - cache.fetchedAt > ttl
    · simp [hstale, hp]
    · simp [hstale]
  refine ⟨rfl, hfail rest, hkeep _ (hfail rest), hkeep, ?_⟩
  intro result rest2
  have h12 : ¬((1 : Int) ≥ 2) := by decide
  simp [fetchLoop, h12]

/-- C2 witness: the amended behaviour at a concrete stale cache and a
concrete failing first page. -/
theorem c2_fetch_abort_witness :
    (ensureSrvRecordsCache ⟨[parseSrvRecord sampleRaw], 10⟩ 400 300
      [PageResp.fail]).1 = ⟨[parseSrvRecord sampleRaw], 10⟩
    ∧ fetchLoop [] [PageResp.ok [sampleRaw] 1 2, PageResp.fail] = [sampleRaw] := by
  have h := c2_fetch_abort [] [] ⟨[parseSrvRecord sampleRaw], 10⟩ 400 300
  exact ⟨h.2.2.1, h.2.2.2.2 [sampleRaw] []⟩

/-- C4: when the upstream fetch fails on its first page or otherwise yields
zero records, `ensureSrvRecordsCache` leaves both `data` and `fetchedAt`
exactly as they were; and a cache whose data is non-empty can never come
out of `ensureSrvRecordsCache` with empty data — it is only ever replaced
by a non-empty snapshot, never cleared. -/
theorem c4_stale_cache (cache : SrvCache) (now ttl : Int) (pages : List PageResp)
    (hfail : fetchAllSrvRecords pages = []) :
    (ensureSrvRecordsCache cache now ttl pages).1 = cache
    ∧ (∀ pages2, cache.data ≠ [] →
        (ensureSrvRecordsCache cache now ttl pages2).1.data ≠ []) := by
  constructor
  · unfold ensureSrvRecordsCache
    by_cases hstale : now - cache.fetchedAt > ttl
    · simp [hstale, hfail]
    · simp [hstale]
  · intro pages2 hne
    unfold ensureSrvRecordsCache
    by_cases hstale : now - cache.fetchedAt > ttl
    · by_cases hlen : (fetchAllSrvRecords pages2).length > 0
      · simp only [if_pos hstale, if_pos hlen]
        intro hcon
        rw [hcon] at hlen
        simp at hlen
      · simp [hstale, hlen, hne]
    · simp [hstale, hne]

/-- C4 witness: a failed fetch at t=400 leaves the concrete non-empty cache
untouched, and a successful fetch never empties it. -/
theorem c4_stale_cache_witness :
    (ensureSrvRecordsCache ⟨[parseSrvRecord sampleRaw], 10⟩ 400 300
      [PageResp.fail]).1 = ⟨[parseSrvRecord sampleRaw], 10⟩
    ∧ (ensureSrvRecordsCache ⟨[parseSrvRecord sampleRaw], 10⟩ 400 300
        [PageResp.ok [sampleRaw] 1 1]).1.data ≠ [] := by
  have h := c4_stale_cache ⟨[parseSrvRecord sampleRaw], 10⟩ 400 300 [PageResp.fail]
    (by decide)
  exact ⟨h.1, h.2 [PageResp.ok [sampleRaw] 1 1] (by decide)⟩

/-- C5 counterexample: with `ttl = 300` and a cache created empty with
`fetchedAt = 0`, calling `ensureSrvRecordsCache` at t=0 does NOT trigger a
fetch (the code tests `now - fetchedAt > ttl`, and `0 - 0 > 300` is
false), and the cache stays empty even though the upstream would have
returned a record — contradicting the claim that the t=0 call fetches. -/
theorem c5_counterexample :
    (ensureSrvRecordsCache ⟨[], 0⟩ 0 300 [PageResp.ok [sampleRaw] 1 1]).2 = false
    ∧ (ensureSrvRecordsCache ⟨[], 0⟩ 0 300 [PageResp.ok [sampleRaw] 1 1]).1
      = ⟨[], 0⟩ := by
  refine ⟨by decide, by decide⟩

/-- C5 (amended): with `ttl = 300`, `ensureSrvRecordsCache` triggers an
upstream fetch exactly when `now - fetchedAt > 300`; on the cache created
with `fetchedAt = 0` this means no fetch at t=0 (0 is not greater than
300), no fetch at t=100, and a fetch at t=301. -/
theorem c5_ttl_refresh (cache : SrvCache) (now : Int) (pages : List PageResp) :
    ((ensureSrvRecordsCache cache now 300 pages).2 = true ↔
      now - cache.fetchedAt > 300)
    ∧ (ensureSrvRecordsCache ⟨[], 0⟩ 0 300 pages).2 = false
    ∧ (ensureSrvRecordsCache ⟨[], 0⟩ 100 300 pages).2 = false
    ∧ (ensureSrvRecordsCache ⟨[], 0⟩ 301 300 pages).2 = true := by
  refine ⟨?_, ?_, ?_, ?_⟩
  · unfold ensureSrvRecordsCache
    by_cases hstale : now - cache.fetchedAt > 300
    · simp [hstale]
    · simp [hstale]
  · unfold ensureSrvRecordsCache
    norm_num
  · unfold ensureSrvRecordsCache
    norm_num
  · unfold ensureSrvRecordsCache
    norm_num

/-- Model of the anchored portal-subdomain pattern
`^(.+)\.<portalDomain>$` followed by the `match[1].includes('.')` check in
`handlePortalSubdomainFallback` (part_000 lines 675-684): some label when
the hostname is `<label>.<portalDomain>` with `<label>` non-empty, free of
line terminators (which `.` in the regex cannot match) and containing no
further dot; `none` otherwise.  Faithful for portal domains made of plain
DNS-name characters, the only metacharacter the worker escapes being `.`. -/
def subLabelList (hl pl : List Char) : Option (List Char) :=
  if ('.' :: pl).length < hl.length
      ∧ hl.drop (hl.length - ('.' :: pl).length) = '.' :: pl then
    if (hl.take (hl.length - ('.' :: pl).length)).contains '.' = false
        ∧ (hl.take (hl.length - ('.' :: pl).length)).all (fun c => !lineTerm c) = true then
      some (hl.take (hl.length - ('.' :: pl).length))
    else none
  else none

/-- String form of `subLabelList`. -/
def portalSubdomainLabel (hostname portalDomain : String) : Option String :=
  (subLabelList hostname.toList portalDomain.toList).map (fun l => ⟨l⟩)

/-- The result the fallback hands back to `handleSrvRedirect`: scheme,
synthesized target host, and the found record's port. -/
structure FallbackResult where
  scheme : String
  target : String
  port : Int
deriving DecidableEq, Repr

/-- The predicate of the `allSrvRecords.find(...)` call in
`handlePortalSubdomainFallback` (part_000 lines 690-693): hostname equal
to `web.<portalDomain>` and service starting (case-sensitively) with
`_http`. -/
def webRecordPred (portalDomain : String) (r : SrvRecord) : Bool :=
  r.hostname == "web." ++ portalDomain && strStarts r.service "_http"

/-- Embedding of `handlePortalSubdomainFallback` (part_000 lines 673-723):
extract the single-label subdomain of the portal domain; find the first
cached record for `web.<portalDomain>` whose service starts with `_http`;
require its target to begin, case-insensitively, with `web.` or `portal.`
(the regex `/^(?:web|portal)\./i`); and synthesize the redirect target by
replacing that prefix with `<subdomain>.`. -/
def handlePortalSubdomainFallback (hostname portalDomain : String)
    (records : List SrvRecord) : Option FallbackResult :=
  match portalSubdomainLabel hostname portalDomain with
  | none => none
  | some subdomain =>
    match records.find? (webRecordPred portalDomain) with
    | none => none
    | some webSrv =>
      if strStarts (lowerStr webSrv.target) "web." then
        some ⟨(determineIfWebService webSrv.service webSrv.protocol).2,
              subdomain ++ "." ++ ⟨webSrv.target.toList.drop 4⟩, webSrv.port⟩
      else if strStarts (lowerStr webSrv.target) "portal." then
        some ⟨(determineIfWebService webSrv.service webSrv.protocol).2,
              subdomain ++ "." ++ ⟨webSrv.target.toList.drop 7⟩, webSrv.port⟩
      else none

/-- A routing decision (§4.4 of the design): an HTTP redirect with its
status and Location value, a non-web informational page for the selected
record, or not-found (mapped to 404 by the presentation layer). -/
inductive Decision where
  | redirect (status : Int) (location : String)
  | serviceInfo (rec : SrvRecord)
  | notFound
deriving DecidableEq, Repr

/-- The configuration fields of `initConfig` that the routing engine
reads. -/
structure Config where
  domainList : List String
  portalDomain : String
  defaultRedirectStatus : Int
deriving DecidableEq, Repr

/-- The two filters at the top of `handleSrvRedirect` (part_000 lines
494-502): keep the records whose hostname matches some configured domain
pattern, then keep those whose hostname equals the request hostname. -/
def matchedForHostname (cfg : Config) (records : List SrvRecord)
    (hostname : String) : List SrvRecord :=
  (records.filter (fun rec => cfg.domainList.any (fun p => testWildcard p rec.hostname))).filter
    (fun rec => rec.hostname == hostname)

/-- Embedding of `handleSrvRedirect` (part_000 lines 488-570): with no
literal match, try the portal-subdomain fallback and redirect to
`scheme://target:port` + path+query with the override-or-default status,
else answer not-found; with a literal match, take the first record and
either redirect (web) with the same status rule or return the non-web
service page. -/
def handleSrvRedirect (hostname pathAndQuery : String) (records : List SrvRecord)
    (overrides : List (String × Int)) (cfg : Config) : Decision :=
  match matchedForHostname cfg records hostname with
  | [] =>
    match handlePortalSubdomainFallback hostname cfg.portalDomain records with
    | some fb =>
        Decision.redirect (getRedirectStatus overrides hostname cfg.defaultRedirectStatus)
          (fb.scheme ++ "://" ++ fb.target ++ ":" ++ toString fb.port ++ pathAndQuery)
    | none => Decision.notFound
  | bestSrv :: _ =>
    if (determineIfWebService bestSrv.service bestSrv.protocol).1 then
      Decision.redirect (getRedirectStatus overrides hostname cfg.defaultRedirectStatus)
        ((determineIfWebService bestSrv.service bestSrv.protocol).2 ++ "://"
          ++ bestSrv.target ++ ":" ++ toString bestSrv.port ++ pathAndQuery)
    else Decision.serviceInfo bestSrv

lemma strData_append (s t : String) : (s ++ t).data = s.data ++ t.data := by
  cases s
  cases t
  rfl

lemma find_eq_some_split {α : Type} (p : α → Bool) (l : List α) (a : α) :
    l.find? p = some a ↔
      ∃ s t, l = s ++ a :: t ∧ (∀ x ∈ s, p x = false) ∧ p a = true := by
  induction l with
  | nil => simp
  | cons c cs ih =>
    by_cases hc : p c = true
    · rw [List.find?_cons_of_pos _ hc]
      constructor
      · intro h
        injection h with h
        subst h
        exact ⟨[], cs, rfl, by simp, hc⟩
      · rintro ⟨s, t, heq, hs, hpa⟩
        cases s with
        | nil =>
          injection heq with h1 h2
          rw [h1]
        | cons y ys =>
          injection heq with h1 h2
          have : p y = false := hs y (by simp)
          rw [← h1] at this
          rw [hc] at this
          cases this
    · have hcf : p c = false := by
        cases hpc : p c
        · rfl
        · exact absurd hpc hc
      rw [List.find?_cons_of_neg _ hc, ih]
      constructor
      · rintro ⟨s, t, rfl, hs, hpa⟩
        refine ⟨c :: s, t, rfl, ?_, hpa⟩
        intro x hx
        rcases List.mem_cons.mp hx with rfl | hx
        · exact hcf
        · exact hs x hx
      · rintro ⟨s, t, heq, hs, hpa⟩
        cases s with
        | nil =>
          injection heq with h1 h2
          rw [h1] at hcf
          rw [hpa] at hcf
          cases hcf
        | cons y ys =>
          injection heq with h1 h2
          exact ⟨ys, t, h2, fun x hx => hs x (by simp [hx]), hpa⟩

lemma matchedForHostname_nil_of_no_literal (cfg : Config) (records : List SrvRecord)
    (hostname : String) (h : ∀ r ∈ records, r.hostname ≠ hostname) :
    matchedForHostname cfg records hostname = [] := by
  unfold matchedForHostname
  rw [List.filter_eq_nil_iff]
  intro rec hrec
  have hmem : rec ∈ records := List.mem_of_mem_filter hrec
  simp [h rec hmem]

lemma matchedForHostname_nil_of_no_pattern (cfg : Config) (records : List SrvRecord)
    (hostname : String)
    (h : ∀ p ∈ cfg.domainList, testWildcard p hostname = false) :
    matchedForHostname cfg records hostname = [] := by
  unfold matchedForHostname
  rw [List.filter_eq_nil_iff]
  intro rec hrec
  rcases List.mem_filter.mp hrec with ⟨_, hpred⟩
  intro heq
  have heq2 : rec.hostname = hostname := by
    exact eq_of_beq heq
  rcases List.any_eq_true.mp hpred with ⟨p, hp, htest⟩
  rw [heq2] at htest
  rw [h p hp] at htest
  cases htest

lemma subLabelList_some (hl pl label : List Char)
    (hH : ∀ c ∈ hl, lineTerm c = false) :
    subLabelList hl pl = some label ↔
      (hl = label ++ '.' :: pl ∧ label ≠ [] ∧ label.contains '.' = false) := by
  constructor
  · intro h
    unfold subLabelList at h
    by_cases h1 : ('.' :: pl).length < hl.length
        ∧ hl.drop (hl.length - ('.' :: pl).length) = '.' :: pl
    · rw [if_pos h1] at h
      by_cases h2 : (hl.take (hl.length - ('.' :: pl).length)).contains '.' = false
          ∧ (hl.take (hl.length - ('.' :: pl).length)).all (fun c => !lineTerm c) = true
      · rw [if_pos h2] at h
        injection h with h
        subst h
        obtain ⟨hlt, hdrop⟩ := h1
        refine ⟨?_, ?_, h2.1⟩
        · conv_lhs => rw [← List.take_append_drop (hl.length - ('.' :: pl).length) hl]
          rw [hdrop]
        · have hk : 0 < hl.length - ('.' :: pl).length := by omega
          intro hcon
          have hlen := congrArg List.length hcon
          rw [List.length_take] at hlen
          simp only [List.length_nil] at hlen
          omega
      · rw [if_neg h2] at h
        cases h
    · rw [if_neg h1] at h
      cases h
  · rintro ⟨rfl, hne, hnodot⟩
    unfold subLabelList
    have hlen : (label ++ '.' :: pl).length = label.length + ('.' :: pl).length := by
      simp
    have hk : (label ++ '.' :: pl).length - ('.' :: pl).length = label.length := by
      omega
    have hpos : 0 < label.length := List.length_pos.mpr hne
    have h1 : ('.' :: pl).length < (label ++ '.' :: pl).length
        ∧ (label ++ '.' :: pl).drop ((label ++ '.' :: pl).length - ('.' :: pl).length)
          = '.' :: pl := by
      constructor
      · omega
      · rw [hk]
        exact List.drop_left label ('.' :: pl)
    rw [if_pos h1]
    have htake : (label ++ '.' :: pl).take ((label ++ '.' :: pl).length - ('.' :: pl).length)
        = label := by
      rw [hk]
      exact List.take_left label ('.' :: pl)
    rw [htake]
    have hall : label.all (fun c => !lineTerm c) = true := by
      rw [List.all_eq_true]
      intro c hc
      have : lineTerm c = false := hH c (List.mem_append_left _ hc)
      simp [this]
    rw [if_pos ⟨hnodot, hall⟩]

lemma portalSubdomainLabel_some (hostname portalDomain label : String)
    (hH : ∀ c ∈ hostname.toList, lineTerm c = false) :
    portalSubdomainLabel hostname portalDomain = some label ↔
      (hostname = label ++ "." ++ portalDomain ∧ label ≠ ""
        ∧ label.toList.contains '.' = false) := by
  unfold portalSubdomainLabel
  rw [Option.map_eq_some']
  constructor
  · rintro ⟨l, hsome, rfl⟩
    rcases (subLabelList_some _ _ _ hH).mp hsome with ⟨hdata, hne, hnod⟩
    refine ⟨?_, ?_, hnod⟩
    · apply strEqOfData
      have hdata2 : hostname.data = l ++ '.' :: portalDomain.data := hdata
      rw [hdata2, strData_append, strData_append]
      simp
    · intro hcon
      exact hne (congrArg String.data hcon)
  · rintro ⟨heq, hne, hnod⟩
    refine ⟨label.data, ?_, rfl⟩
    apply (subLabelList_some _ _ _ hH).mpr
    refine ⟨?_, ?_, hnod⟩
    · have h2 := congrArg String.data heq
      rw [strData_append, strData_append] at h2
      simpa using h2
    · intro hcon
      apply hne
      apply strEqOfData
      rw [hcon]

/-- C9: the override store accepts exactly the statuses 301/302/307/308 and
silently ignores anything else; on a store containing only accepted
statuses, lookup yields the stored override when present and the default
otherwise; every redirect decision of the routing engine carries the
override-or-default status for the request hostname; and an absent or
invalid configured default parses to 302. -/
theorem c9_override_store (store : List (String × Int)) (hostname pq : String)
    (status dflt : Int) :
    (¬(status = 301 ∨ status = 302 ∨ status = 307 ∨ status = 308) →
      updateCustomRedirectMode store hostname status = store)
    ∧ ((status = 301 ∨ status = 302 ∨ status = 307 ∨ status = 308) →
      getOverride (updateCustomRedirectMode store hostname status) hostname = some status)
    ∧ ((∀ q ∈ store, q.2 = 301 ∨ q.2 = 302 ∨ q.2 = 307 ∨ q.2 = 308) →
      (∀ v, getOverride store hostname = some v →
        getRedirectStatus store hostname dflt = v)
      ∧ (getOverride store hostname = none →
        getRedirectStatus store hostname dflt = dflt))
    ∧ (∀ records cfg st loc,
        handleSrvRedirect hostname pq records store cfg = Decision.redirect st loc →
        st = getRedirectStatus store hostname cfg.defaultRedirectStatus)
    ∧ parseDefaultRedirectStatus none = 302 := by
  refine ⟨?_, ?_, ?_, ?_, rfl⟩
  · intro h
    unfold updateCustomRedirectMode
    rw [if_neg h]
  · intro h
    unfold updateCustomRedirectMode
    rw [if_pos h]
    unfold getOverride
    rw [List.find?_cons_of_pos _ (by simp)]
    rfl
  · intro hval
    constructor
    · intro v hv
      unfold getRedirectStatus
      rw [hv]
      unfold getOverride at hv
      rcases hp : store.find? (fun p => p.1 == hostname) with _ | p
      · rw [hp] at hv
        cases hv
      · rw [hp] at hv
        have hmem : p ∈ store := List.mem_of_find?_eq_some hp
        have hv2 : p.2 = v := by
          simpa using hv
        have := hval p hmem
        rw [hv2] at this
        have hvne : v ≠ 0 := by omega
        simp [hvne]
    · intro hv
      unfold getRedirectStatus
      rw [hv]
  · intro records cfg st loc hdec
    unfold handleSrvRedirect at hdec
    cases hm : matchedForHostname cfg records hostname with
    | nil =>
      rw [hm] at hdec
      cases hf : handlePortalSubdomainFallback hostname cfg.portalDomain records with
      | none =>
        rw [hf] at hdec
        simp at hdec
      | some fb =>
        rw [hf] at hdec
        simp only [Decision.redirect.injEq] at hdec
        exact hdec.1.symm
    | cons bestSrv rest =>
      rw [hm] at hdec
      by_cases hweb : (determineIfWebService bestSrv.service bestSrv.protocol).1 = true
      · simp only [hweb, if_true] at hdec
        simp only [Decision.redirect.injEq] at hdec
        exact hdec.1.symm
      · simp only [hweb] at hdec
        simp at hdec

/-- C9 witness: `set("a.example.com", 999)` leaves the empty store
unchanged, `set("a.example.com", 307)` makes the lookup yield 307, and the
unset default parses to 302. -/
theorem c9_override_store_witness :
    updateCustomRedirectMode [] "a.example.com" 999 = []
    ∧ getOverride (updateCustomRedirectMode [] "a.example.com" 307) "a.example.com"
      = some 307
    ∧ parseDefaultRedirectStatus none = 302 := by
  have h := c9_override_store [] "a.example.com" "/" 999 302
  have h2 := c9_override_store [] "a.example.com" "/" 307 302
  exact ⟨h.1 (by decide), h2.2.1 (by decide), h.2.2.2.2⟩

/-- C10: a redirect produced through the portal-subdomain fallback carries
the override-or-default status for the request hostname — the same rule as
the literal-record web case — and its Location is
`scheme://synthesizedTarget:port` followed by the original request path
and query. -/
theorem c10_fallback_redirect (hostname pq : String) (records : List SrvRecord)
    (overrides : List (String × Int)) (cfg : Config) (fb : FallbackResult)
    (hm : matchedForHostname cfg records hostname = [])
    (hf : handlePortalSubdomainFallback hostname cfg.portalDomain records = some fb) :
    handleSrvRedirect hostname pq records overrides cfg =
      Decision.redirect (getRedirectStatus overrides hostname cfg.defaultRedirectStatus)
        (fb.scheme ++ "://" ++ fb.target ++ ":" ++ toString fb.port ++ pq) := by
  unfold handleSrvRedirect
  rw [hm, hf]

/-- C10 witness: the concrete fallback redirect for `bar.portal.test`
carries the default status 302 and the synthesized Location. -/
theorem c10_fallback_redirect_witness :
    handleSrvRedirect "bar.portal.test" "/x?q=1"
      [⟨"_http._tcp.web.portal.test", "_http", "_tcp", "web.portal.test",
        "web.box", 8080, 0, 0⟩]
      [] ⟨["*.portal.test"], "portal.test", 302⟩
      = Decision.redirect 302 "http://bar.box:8080/x?q=1" := by
  have h := c10_fallback_redirect "bar.portal.test" "/x?q=1"
    [⟨"_http._tcp.web.portal.test", "_http", "_tcp", "web.portal.test",
      "web.box", 8080, 0, 0⟩]
    [] ⟨["*.portal.test"], "portal.test", 302⟩ ⟨"http", "bar.box", 8080⟩
    (by decide) (by decide)
  rw [h]
  decide

/-- C3 counterexample: `xyz.nat.example.com` matches no pattern of the
configured `domainList = ["d1.example.com"]`, yet with portal domain
`nat.example.com` and a cached `web.nat.example.com` `_http` record whose
target is `web.backend`, the routing decision is a Redirect (through the
portal-subdomain fallback, which never consults the domain list) — not
NotFound as the claim requires. -/
theorem c3_counterexample :
    (∀ p ∈ ["d1.example.com"], testWildcard p "xyz.nat.example.com" = false)
    ∧ handleSrvRedirect "xyz.nat.example.com" "/"
        [⟨"_http._tcp.web.nat.example.com", "_http", "_tcp", "web.nat.example.com",
          "web.backend", 8443, 0, 0⟩]
        [] ⟨["d1.example.com"], "nat.example.com", 302⟩
      = Decision.redirect 302 "http://xyz.backend:8443/"
    ∧ handleSrvRedirect "xyz.nat.example.com" "/"
        [⟨"_http._tcp.web.nat.example.com", "_http", "_tcp", "web.nat.example.com",
          "web.backend", 8443, 0, 0⟩]
        [] ⟨["d1.example.com"], "nat.example.com", 302⟩
      ≠ Decision.notFound := by
  refine ⟨by decide, by decide, by decide⟩

/-- C3 (amended): when the request hostname matches no configured domain
pattern, no literal record can be selected, so the decision is NotFound
unless the portal-subdomain fallback (which does not consult the domain
list) applies, in which case it is the fallback Redirect. -/
theorem c3_unmatched_hostname (hostname pq : String) (records : List SrvRecord)
    (overrides : List (String × Int)) (cfg : Config)
    (h : ∀ p ∈ cfg.domainList, testWildcard p hostname = false) :
    (handlePortalSubdomainFallback hostname cfg.portalDomain records = none →
      handleSrvRedirect hostname pq records overrides cfg = Decision.notFound)
    ∧ (∀ fb, handlePortalSubdomainFallback hostname cfg.portalDomain records = some fb →
      handleSrvRedirect hostname pq records overrides cfg =
        Decision.redirect (getRedirectStatus overrides hostname cfg.defaultRedirectStatus)
          (fb.scheme ++ "://" ++ fb.target ++ ":" ++ toString fb.port ++ pq)) := by
  have hm := matchedForHostname_nil_of_no_pattern cfg records hostname h
  constructor
  · intro hf
    unfold handleSrvRedirect
    rw [hm, hf]
  · intro fb hf
    unfold handleSrvRedirect
    rw [hm, hf]

/-- C3 witness: with no matching pattern and no applicable fallback the
decision is NotFound. -/
theorem c3_unmatched_hostname_witness :
    handleSrvRedirect "xyz.other.org" "/" [] []
      ⟨["d1.example.com"], "nat.example.com", 302⟩ = Decision.notFound := by
  exact (c3_unmatched_hostname "xyz.other.org" "/" [] []
    ⟨["d1.example.com"], "nat.example.com", 302⟩ (by decide)).1 (by decide)

/-- The conditions under which the portal-subdomain fallback produces a
result `fb`, stated declaratively: the hostname decomposes as
`<label>.<portalDomain>` with a non-empty, dot-free label; the cache splits
around the first record for `web.<portalDomain>` whose service starts with
`_http`; and that record's target begins (case-insensitively) with `web.`
or `portal.`, the prefix being replaced by `<label>.` in the synthesized
target, with the record's port and classified scheme. -/
def c1FallbackSpec (hostname portalDomain : String) (records : List SrvRecord)
    (fb : FallbackResult) : Prop :=
  ∃ label r s t,
    hostname = label ++ "." ++ portalDomain ∧ label ≠ ""
    ∧ label.toList.contains '.' = false
    ∧ records = s ++ r :: t
    ∧ (∀ x ∈ s, webRecordPred portalDomain x = false)
    ∧ webRecordPred portalDomain r = true
    ∧ ((strStarts (lowerStr r.target) "web." = true
        ∧ fb = ⟨(determineIfWebService r.service r.protocol).2,
                label ++ "." ++ ⟨r.target.toList.drop 4⟩, r.port⟩)
      ∨ (strStarts (lowerStr r.target) "web." = false
        ∧ strStarts (lowerStr r.target) "portal." = true
        ∧ fb = ⟨(determineIfWebService r.service r.protocol).2,
                label ++ "." ++ ⟨r.target.toList.drop 7⟩, r.port⟩))

/-- C1 counterexample: reading the claim's condition as "some cached record
has hostname `web.<portalDomain>`, service starting with `_http`, and a
`web.`/`portal.`-prefixed target" makes it false: the worker takes the
FIRST record for `web.<portalDomain>`/`_http` in cache order, and when
that record's target (`x.internal`) lacks the prefix the fallback yields
NotFound even though a later record (`web.backend`) satisfies every
condition. -/
theorem c1_counterexample :
    (∀ r ∈ [(⟨"_http._tcp.web.nat.example.com", "_http", "_tcp",
          "web.nat.example.com", "x.internal", 1234, 0, 0⟩ : SrvRecord),
        ⟨"_http._tcp.web.nat.example.com", "_http", "_tcp",
          "web.nat.example.com", "web.backend", 8443, 0, 0⟩],
        r.hostname ≠ "foo.nat.example.com")
    ∧ ("foo.nat.example.com" = "foo" ++ "." ++ "nat.example.com"
        ∧ ("foo" : String) ≠ "" ∧ "foo".toList.contains '.' = false)
    ∧ (webRecordPred "nat.example.com"
        ⟨"_http._tcp.web.nat.example.com", "_http", "_tcp",
          "web.nat.example.com", "web.backend", 8443, 0, 0⟩ = true
      ∧ strStarts (lowerStr "web.backend") "web." = true)
    ∧ handlePortalSubdomainFallback "foo.nat.example.com" "nat.example.com"
        [⟨"_http._tcp.web.nat.example.com", "_http", "_tcp",
          "web.nat.example.com", "x.internal", 1234, 0, 0⟩,
        ⟨"_http._tcp.web.nat.example.com", "_http", "_tcp",
          "web.nat.example.com", "web.backend", 8443, 0, 0⟩] = none
    ∧ handleSrvRedirect "foo.nat.example.com" "/"
        [⟨"_http._tcp.web.nat.example.com", "_http", "_tcp",
          "web.nat.example.com", "x.internal", 1234, 0, 0⟩,
        ⟨"_http._tcp.web.nat.example.com", "_http", "_tcp",
          "web.nat.example.com", "web.backend", 8443, 0, 0⟩]
        [] ⟨["*.nat.example.com"], "nat.example.com", 302⟩ = Decision.notFound := by
  refine ⟨by decide, ⟨by decide, by decide, by decide⟩, ⟨by decide, by decide⟩,
    by decide, by decide⟩

/-- C1 (amended): for a hostname (free of line terminators) with no cached
record of that exact hostname, the portal-subdomain fallback yields a
result iff the hostname is `<label>.<portalDomain>` with a non-empty,
dot-free label and the FIRST cached record with hostname
`web.<portalDomain>` and service starting with `_http` has a target
beginning (case-insensitively) with `web.` or `portal.`; the result then
carries that record's classified scheme and port and the target with the
prefix replaced by `<label>.`; when the fallback yields nothing the
decision is NotFound, and when it yields a result the decision is a
Redirect. -/
theorem c1_portal_fallback (hostname pq : String) (records : List SrvRecord)
    (overrides : List (String × Int)) (cfg : Config)
    (hH : ∀ c ∈ hostname.toList, lineTerm c = false)
    (hnolit : ∀ r ∈ records, r.hostname ≠ hostname) :
    (∀ fb, handlePortalSubdomainFallback hostname cfg.portalDomain records = some fb ↔
        c1FallbackSpec hostname cfg.portalDomain records fb)
    ∧ (handlePortalSubdomainFallback hostname cfg.portalDomain records = none →
        handleSrvRedirect hostname pq records overrides cfg = Decision.notFound)
    ∧ (∀ fb, handlePortalSubdomainFallback hostname cfg.portalDomain records = some fb →
        ∃ st loc, handleSrvRedirect hostname pq records overrides cfg
          = Decision.redirect st loc) := by
  have hm := matchedForHostname_nil_of_no_literal cfg records hostname hnolit
  refine ⟨?_, ?_, ?_⟩
  · intro fb
    unfold handlePortalSubdomainFallback
    cases hl : portalSubdomainLabel hostname cfg.portalDomain with
    | none =>
      constructor
      · intro h
        cases h
      · rintro ⟨label, r, s, t, heq, hne, hnod, -, -, -, -⟩
        have hsome := (portalSubdomainLabel_some hostname cfg.portalDomain label hH).mpr
          ⟨heq, hne, hnod⟩
        rw [hl] at hsome
        cases hsome
    | some label =>
      obtain ⟨heq, hne, hnod⟩ :=
        (portalSubdomainLabel_some hostname cfg.portalDomain label hH).mp hl
      cases hfind : records.find? (webRecordPred cfg.portalDomain) with
      | none =>
        constructor
        · intro h
          cases h
        · rintro ⟨label2, r, s, t, -, -, -, hrec, hsfail, hpred, -⟩
          have hsome := (find_eq_some_split (webRecordPred cfg.portalDomain) records r).mpr
            ⟨s, t, hrec, hsfail, hpred⟩
          rw [hfind] at hsome
          cases hsome
      | some webSrv =>
        obtain ⟨s, t, hrec, hsfail, hpred⟩ :=
          (find_eq_some_split (webRecordPred cfg.portalDomain) records webSrv).mp hfind
        constructor
        · intro h
          have h2 : (if strStarts (lowerStr webSrv.target) "web." = true then
                some (⟨(determineIfWebService webSrv.service webSrv.protocol).2,
                      label ++ "." ++ ⟨webSrv.target.toList.drop 4⟩, webSrv.port⟩ :
                        FallbackResult)
              else if strStarts (lowerStr webSrv.target) "portal." = true then
                some ⟨(determineIfWebService webSrv.service webSrv.protocol).2,
                      label ++ "." ++ ⟨webSrv.target.toList.drop 7⟩, webSrv.port⟩
              else none) = some fb := h
          by_cases hw : strStarts (lowerStr webSrv.target) "web." = true
          · rw [if_pos hw] at h2
            injection h2 with h2
            exact ⟨label, webSrv, s, t, heq, hne, hnod, hrec, hsfail, hpred,
              Or.inl ⟨hw, h2.symm⟩⟩
          · rw [if_neg hw] at h2
            by_cases hp : strStarts (lowerStr webSrv.target) "portal." = true
            · rw [if_pos hp] at h2
              injection h2 with h2
              have hwf : strStarts (lowerStr webSrv.target) "web." = false := by
                cases h3 : strStarts (lowerStr webSrv.target) "web."
                · rfl
                · exact absurd h3 hw
              exact ⟨label, webSrv, s, t, heq, hne, hnod, hrec, hsfail, hpred,
                Or.inr ⟨hwf, hp, h2.symm⟩⟩
            · rw [if_neg hp] at h2
              cases h2
        · rintro ⟨label2, r, s2, t2, heq2, hne2, hnod2, hrec2, hsfail2, hpred2, hcase⟩
          have hl2 := (portalSubdomainLabel_some hostname cfg.portalDomain label2 hH).mpr
            ⟨heq2, hne2, hnod2⟩
          rw [hl] at hl2
          injection hl2 with hl2
          subst hl2
          have hfind2 := (find_eq_some_split (webRecordPred cfg.portalDomain) records r).mpr
            ⟨s2, t2, hrec2, hsfail2, hpred2⟩
          rw [hfind] at hfind2
          injection hfind2 with hfind2
          subst hfind2
          rcases hcase with ⟨hw, rfl⟩ | ⟨hwf, hp, rfl⟩
          · show (if strStarts (lowerStr webSrv.target) "web." = true then
                some (⟨(determineIfWebService webSrv.service webSrv.protocol).2,
                      label ++ "." ++ ⟨webSrv.target.toList.drop 4⟩, webSrv.port⟩ :
                        FallbackResult)
              else if strStarts (lowerStr webSrv.target) "portal." = true then
                some ⟨(determineIfWebService webSrv.service webSrv.protocol).2,
                      label ++ "." ++ ⟨webSrv.target.toList.drop 7⟩, webSrv.port⟩
              else none)
              = some ⟨(determineIfWebService webSrv.service webSrv.protocol).2,
                      label ++ "." ++ ⟨webSrv.target.toList.drop 4⟩, webSrv.port⟩
            rw [if_pos hw]
          · show (if strStarts (lowerStr webSrv.target) "web." = true then
                some (⟨(determineIfWebService webSrv.service webSrv.protocol).2,
                      label ++ "." ++ ⟨webSrv.target.toList.drop 4⟩, webSrv.port⟩ :
                        FallbackResult)
              else if strStarts (lowerStr webSrv.target) "portal." = true then
                some ⟨(determineIfWebService webSrv.service webSrv.protocol).2,
                      label ++ "." ++ ⟨webSrv.target.toList.drop 7⟩, webSrv.port⟩
              else none)
              = some ⟨(determineIfWebService webSrv.service webSrv.protocol).2,
                      label ++ "." ++ ⟨webSrv.target.toList.drop 7⟩, webSrv.port⟩
            rw [if_neg (by simp [hwf]), if_pos hp]
  · intro hf
    unfold handleSrvRedirect
    rw [hm, hf]
  · intro fb hf
    refine ⟨getRedirectStatus overrides hostname cfg.defaultRedirectStatus,
      fb.scheme ++ "://" ++ fb.target ++ ":" ++ toString fb.port ++ pq, ?_⟩
    unfold handleSrvRedirect
    rw [hm, hf]

/-- C1 witness: for the single cached record
`web.nat.example.com`/`_http` with target `web.backend`, the fallback at
`foo.nat.example.com` synthesizes `foo.backend` with scheme `http` and the
record's port. -/
theorem c1_portal_fallback_witness :
    handlePortalSubdomainFallback "foo.nat.example.com" "nat.example.com"
      [⟨"_http._tcp.web.nat.example.com", "_http", "_tcp", "web.nat.example.com",
        "web.backend", 8443, 0, 0⟩]
      = some ⟨"http", "foo.backend", 8443⟩ := by
  have h := c1_portal_fallback "foo.nat.example.com" "/"
    [⟨"_http._tcp.web.nat.example.com", "_http", "_tcp", "web.nat.example.com",
      "web.backend", 8443, 0, 0⟩]
    [] ⟨[], "nat.example.com", 302⟩ (by decide) (by decide)
  exact (h.1 ⟨"http", "foo.backend", 8443⟩).mpr
    ⟨"foo",
      ⟨"_http._tcp.web.nat.example.com", "_http", "_tcp", "web.nat.example.com",
        "web.backend", 8443, 0, 0⟩,
      [], [], by decide, by decide, by decide, rfl, by simp, by decide,
      Or.inl ⟨by decide, by decide⟩⟩
